import Mathlib

/-!
# The social-feed prototype of `src/app.js`

A shallow embedding of the script `src/app.js`: the in-memory `state` object
(`users`, `posts`), the single `localStorage` slot, the two composer inputs and
the alerts shown to the user form an explicit `World`; every event handler of
the script is a function `World → World`.

Conventions of the embedding.

* Numbers of the script are IEEE 754 doubles. The embedding keeps the ones
  the data model makes whole numbers (`likes`, the millisecond clock
  `Date.now()`, `ts`) as `Int`. The clock values are only stored and printed,
  never computed with; the two computations on `likes`, `+ 1` and `- 1`, round
  their exact result to the nearest double (`roundDouble`), as the addition of
  doubles does. A magnitude of `2^1024` or more, where a double is infinite,
  has no counterpart in the script.
* `likedBy` is `Option (List String)`: `none` stands for a post object without
  a (truthy) `likedBy` field, which the script guards against with
  `p.likedBy || []`.
* `Date.now()` and `Math.random().toString(36).slice(2,8)` are inputs of the
  environment, gathered in `CreateEnv` (one value per call in `createPost`).
* `confirm(...)` is the user's answer, a `Bool` argument of `onReset`.
* `render()` rebuilds the DOM from `state` and never assigns to `state`; the
  DOM is not part of `World`. The click handler that `render` attaches to the
  follow button of a row is `onFollowClick`, the one it attaches to the like
  button of a card is `toggleLike` applied to the id of the post.
* Every definition follows the text of the source as it stands. Lines 96, 118,
  129 and 186 to 189 of the source are not well-formed JavaScript (template
  literals without their backticks, garbled markup on line 118); the
  statements they belong to, the DOM construction of `render` and the whole
  body of `timeAgo`, are not embedded, and nothing below depends on a reading
  of them.
* `JSON.stringify`/`JSON.parse` are abstracted: the slot holds the document
  itself (`stored : Option AppState`), `none` meaning absent or unreadable.
-/

namespace DateApp

/-! ## Data model -/

/-- An entry of `state.users`: `{id, name, following}`. -/
structure User where
  id : String
  name : String
  following : Bool
deriving DecidableEq, Repr

/-- An entry of `state.posts`: `{id, author, content, likes, likedBy, ts}`. -/
structure Post where
  id : String
  author : String
  content : String
  likes : Int
  likedBy : Option (List String)
  ts : Int
deriving DecidableEq, Repr

/-- The object held by the variable `state`: `{users, posts}`. -/
structure AppState where
  users : List User
  posts : List Post
deriving DecidableEq, Repr

/-- An entry of the constant `sampleUsers`: `{id, name}`. -/
structure SampleUser where
  id : String
  name : String
deriving DecidableEq, Repr

/-- The constant `sampleUsers`. -/
def sampleUsers : List SampleUser :=
  [ { id := "u1", name := "Alex" },
    { id := "u2", name := "Jordan" },
    { id := "u3", name := "Sam" } ]

/-- What one call of `createPost` reads from its environment: the value of the
first `Date.now()` (used in the id), the string
`Math.random().toString(36).slice(2,8)`, and the value of the second
`Date.now()` (stored in `ts`). -/
structure CreateEnv where
  idNow : Int
  suffix : String
  tsNow : Int
deriving DecidableEq, Repr

/-- Everything the handlers read or write: the variable `state`, the
`localStorage` slot under `STORAGE_KEY`, the values of the two composer inputs
and the messages passed to `alert`, oldest first. -/
structure World where
  state : AppState
  stored : Option AppState
  postContent : String
  postName : String
  alerts : List String
deriving DecidableEq, Repr

/-! ## Built-ins of the language used by the script -/

/-- The characters removed by `String.prototype.trim`: the ECMAScript
`WhiteSpace` and `LineTerminator` code points. -/
def isJsWhitespace (c : Char) : Bool :=
  let n := c.toNat
  n = 0x09 || n = 0x0A || n = 0x0B || n = 0x0C || n = 0x0D || n = 0x20 ||
  n = 0xA0 || n = 0x1680 || (0x2000 ≤ n && n ≤ 0x200A) ||
  n = 0x2028 || n = 0x2029 || n = 0x202F || n = 0x205F || n = 0x3000 ||
  n = 0xFEFF

/-- The list-of-characters form of `String.prototype.trim`: whitespace is
dropped from the front and from the back. -/
def trimChars (cs : List Char) : List Char :=
  ((cs.dropWhile isJsWhitespace).reverse.dropWhile isJsWhitespace).reverse

/-- The method `String.prototype.trim`. -/
def jsTrim (s : String) : String :=
  String.mk (trimChars s.data)

/-- The expression `a || b` on strings: the empty string is the only falsy
string. -/
def strOr (a b : String) : String :=
  if a = "" then b else a

/-- The power of two by which a magnitude `a` has to be divided to fit the 53
bits of the significand of a double: `a` is halved until it is below `2^53`.
The first argument bounds the number of halvings; `a` itself is enough. -/
def quantumExp : Nat → Nat → Nat
  | 0, _ => 0
  | fuel + 1, a => if a < 9007199254740992 then 0 else quantumExp fuel (a / 2) + 1

/-- The double nearest to the natural number `a`: `a` is rounded to a multiple
of the spacing `q` of the doubles around it, a tie going to the multiple with
the even significand. Below `2^53` the spacing is `1` and nothing changes. -/
def roundNat (a : Nat) : Nat :=
  let q := 2 ^ quantumExp a a
  let m := a / q
  let r := a % q
  if 2 * r < q then m * q
  else if q < 2 * r then (m + 1) * q
  else if m % 2 = 0 then m * q
  else (m + 1) * q

/-- The double nearest to the integer `n` (round to nearest, ties to even): what
an arithmetic operation of the script returns when its exact result is `n`. -/
def roundDouble (n : Int) : Int :=
  n.sign * (roundNat n.natAbs : Int)

/-- The expression `n || 0` on integers: `0` is the only falsy integer. -/
def intOrZero (n : Int) : Int :=
  if n = 0 then 0 else n

/-! ## Persistence -/

/-- The function `loadState`: the stored document, or the empty state when the
slot is absent or unreadable. -/
def loadState (stored : Option AppState) : AppState :=
  match stored with
  | none => { users := [], posts := [] }
  | some doc => doc

/-- The function `saveState`: the slot is overwritten with the current
state. -/
def saveState (w : World) : World :=
  { w with stored := some w.state }

/-! ## Posts -/

/-- The function `createPost`. -/
def createPost (e : CreateEnv) (author content : String) : Post :=
  { id := "p_" ++ toString e.idNow ++ "_" ++ e.suffix,
    author := author,
    content := content,
    likes := 0,
    likedBy := some [],
    ts := e.tsNow }

/-- The three posts both the start-up code and `onReset` assign to
`state.posts`, one `createPost` call each. -/
def samplePosts (e1 e2 e3 : CreateEnv) : List Post :=
  [ createPost e1 "Alex" "Hello! This is a sample post.",
    createPost e2 "Jordan" "Welcome to the Date App demo.",
    createPost e3 "Sam" "Try creating a post using the box above." ]

/-- The expression `sampleUsers.map(u => ({ ...u, following: false }))`. -/
def seedUsers : List User :=
  sampleUsers.map (fun u => { id := u.id, name := u.name, following := false })

/-- The top-level code of the script up to the first `render()`: the state is
loaded, and when both lists are empty it is seeded and saved. The arguments
`content` and `name` are the values the two inputs hold at start-up. -/
def boot (stored : Option AppState) (content name : String)
    (e1 e2 e3 : CreateEnv) : World :=
  let w : World :=
    { state := loadState stored, stored := stored,
      postContent := content, postName := name, alerts := [] }
  if w.state.users.length = 0 ∧ w.state.posts.length = 0 then
    saveState { w with state := { users := seedUsers, posts := samplePosts e1 e2 e3 } }
  else
    w

/-- The handler `onCreatePost`. -/
def onCreatePost (e : CreateEnv) (w : World) : World :=
  let content := jsTrim w.postContent
  let name := strOr (jsTrim w.postName) "You"
  if content = "" then
    { w with alerts := w.alerts ++ ["Please enter a message."] }
  else
    let p := createPost e name content
    let w1 := { w with state := { w.state with posts := p :: w.state.posts } }
    let w2 := saveState w1
    { w2 with postContent := "", postName := "" }

/-! ## Likes -/

/-- The body of `toggleLike` after the post object `p` has been found: the
assignments to `p.likedBy` and `p.likes`. The subtraction `p.likes - 1` and the
addition `(p.likes || 0) + 1` are operations on doubles, so their exact results
are rounded; `Math.max` of two doubles is exact. -/
def likeFlip (p : Post) : Post :=
  let likedBy := p.likedBy.getD []
  if likedBy.contains "me" then
    { p with likedBy := some (likedBy.filter (fun x => "me" != x)),
             likes := max 0 (roundDouble (p.likes - 1)) }
  else
    { p with likedBy := some (likedBy ++ ["me"]),
             likes := roundDouble (intOrZero p.likes + 1) }

/-- Assignment through the reference returned by
`state.posts.find(x => x.id === postId)`: the first element with that id is
replaced by its updated value, in place. -/
def updateFound (f : Post → Post) (postId : String) : List Post → List Post
  | [] => []
  | x :: xs => if x.id = postId then f x :: xs else x :: updateFound f postId xs

/-- The function `toggleLike`. -/
def toggleLike (postId : String) (w : World) : World :=
  match w.state.posts.find? (fun x => x.id == postId) with
  | none => w
  | some _ =>
    saveState { w with state := { w.state with posts := updateFound likeFlip postId w.state.posts } }

/-- The test `post.likedBy && post.likedBy.includes('me')` of `render`, also
the test of `toggleLike` after its `|| []`. -/
def likedByMe (p : Post) : Bool :=
  (p.likedBy.getD []).contains "me"

/-! ## Follows -/

/-- The click handler `render` attaches to the follow button of row `i`:
`u.following = !u.following` on the `i`-th user, then save. -/
def flipFollowAt : Nat → List User → List User
  | _, [] => []
  | 0, u :: us => { u with following := !u.following } :: us
  | i + 1, u :: us => u :: flipFollowAt i us

/-- The handler of the follow button of row `i`. -/
def onFollowClick (i : Nat) (w : World) : World :=
  saveState { w with state := { w.state with users := flipFollowAt i w.state.users } }

/-- The handler `onToggleFollowAll`. -/
def onToggleFollowAll (w : World) : World :=
  let anyFollowing := w.state.users.any (fun u => u.following)
  saveState { w with state :=
    { w.state with users := w.state.users.map (fun u => { u with following := !anyFollowing }) } }

/-! ## Reset -/

/-- The handler `onReset`; `confirmed` is what `confirm(...)` returns. -/
def onReset (confirmed : Bool) (e1 e2 e3 : CreateEnv) (w : World) : World :=
  if !confirmed then w
  else
    let w1 := { w with stored := none }
    let w2 := { w1 with state := { users := [], posts := [] } }
    let w3 := { w2 with state := { w2.state with users := seedUsers } }
    let w4 := { w3 with state := { w3.state with posts := samplePosts e1 e2 e3 } }
    saveState w4

/-! ## Utilities -/

/-- The replacement table of `escapeHtml`, as written in the source: the
callback of `replace` looks the matched character up in an object literal. -/
def escapeChar (c : Char) : List Char :=
  if c = '&' then "&".data
  else if c = '<' then "<".data
  else if c = '>' then ">".data
  else if c = '"' then "“".data
  else if c = '\'' then "&#39;".data
  else [c]

/-- The function `escapeHtml`: every match of `/[&<>"']/g` is replaced by its
table entry, every other character is kept. -/
def escapeHtml (str : String) : String :=
  String.mk (str.data.flatMap escapeChar)

/-! ## Sequences of user actions -/

/-- What the user can do on the page. -/
inductive Action where
  | typeContent (text : String)
  | typeName (text : String)
  | clickPost (e : CreateEnv)
  | clickLike (postId : String)
  | clickFollow (i : Nat)
  | clickToggleAll
  | clickReset (confirmed : Bool) (e1 e2 e3 : CreateEnv)
deriving Repr

/-- The effect of one action. -/
def step (w : World) : Action → World
  | .typeContent text => { w with postContent := text }
  | .typeName text => { w with postName := text }
  | .clickPost e => onCreatePost e w
  | .clickLike postId => toggleLike postId w
  | .clickFollow i => onFollowClick i w
  | .clickToggleAll => onToggleFollowAll w
  | .clickReset confirmed e1 e2 e3 => onReset confirmed e1 e2 e3 w

/-- The effect of a sequence of actions, first action first. -/
def run (w : World) (acts : List Action) : World :=
  acts.foldl step w

/-! ## Concrete worlds used as instances -/

/-- One reading of the clock and of the random suffix: `Date.now()` gives `0`
twice and the suffix is `"a"`. -/
def sameTick : CreateEnv := { idNow := 0, suffix := "a", tsNow := 0 }

/-- A stored document with one post whose counter is `0` although the viewer is
in its `likedBy`. -/
def driftedDoc : AppState :=
  { users := [],
    posts := [ { id := "p", author := "A", content := "x", likes := 0,
                 likedBy := some ["me"], ts := 0 } ] }

/-- The page started on `driftedDoc`: the document is loaded as it is, no
seeding takes place. -/
def driftedWorld : World := boot (some driftedDoc) "" "" sameTick sameTick sameTick

/-- A stored document with one post that the viewer has not liked and whose
counter is `2^53`, the first whole number whose successor is not a double. -/
def saturatedDoc : AppState :=
  { users := [],
    posts := [ { id := "p", author := "A", content := "x", likes := 9007199254740992,
                 likedBy := some [], ts := 0 } ] }

/-- The page started on `saturatedDoc`: the document is loaded as it is, no
seeding takes place. -/
def saturatedWorld : World := boot (some saturatedDoc) "" "" sameTick sameTick sameTick

/-- A first run of the page with three distinct seed ids. -/
def demoWorld : World :=
  boot none "" ""
    { idNow := 1000, suffix := "aaaaaa", tsNow := 1000 }
    { idNow := 1000, suffix := "bbbbbb", tsNow := 1000 }
    { idNow := 1001, suffix := "cccccc", tsNow := 1001 }

/-- The first seed post of `demoWorld`. -/
def demoFirst : Post :=
  createPost { idNow := 1000, suffix := "aaaaaa", tsNow := 1000 } "Alex" "Hello! This is a sample post."

/-- The second seed post of `demoWorld`. -/
def demoSecond : Post :=
  createPost { idNow := 1000, suffix := "bbbbbb", tsNow := 1000 } "Jordan" "Welcome to the Date App demo."

/-- The counter of a post agrees with its `likedBy` list, which holds at most
the viewer. -/
def Consistent (p : Post) : Prop :=
  p.likes = ((p.likedBy.getD []).length : Int) ∧
    (p.likedBy = some [] ∨ p.likedBy = some ["me"])

/-! ## Auxiliary facts about `updateFound` -/

theorem updateFound_length (f : Post → Post) (postId : String) (l : List Post) :
    (updateFound f postId l).length = l.length := by
  induction l with
  | nil => rfl
  | cons x xs ih =>
    unfold updateFound
    split
    · simp
    · simp [ih]

theorem updateFound_absent (f : Post → Post) (postId : String) (l : List Post)
    (h : ∀ p ∈ l, p.id ≠ postId) : updateFound f postId l = l := by
  induction l with
  | nil => rfl
  | cons x xs ih =>
    have hx : x.id ≠ postId := h x (List.mem_cons_self x xs)
    have hxs : ∀ p ∈ xs, p.id ≠ postId := fun p hp => h p (List.mem_cons_of_mem x hp)
    simp [updateFound, hx, ih hxs]

theorem find_none_iff (postId : String) (l : List Post) :
    l.find? (fun x => x.id == postId) = none ↔ ∀ p ∈ l, p.id ≠ postId := by
  simp [List.find?_eq_none]

theorem updateFound_first (f : Post → Post) (postId : String) :
    ∀ (l : List Post) (i : Nat) (p : Post), l[i]? = some p → p.id = postId →
      (∀ j q, j < i → l[j]? = some q → q.id ≠ postId) →
      (updateFound f postId l)[i]? = some (f p) := by
  intro l
  induction l with
  | nil => intro i p h; simp at h
  | cons x xs ih =>
    intro i p h hid hfirst
    cases i with
    | zero =>
      simp at h
      subst h
      simp [updateFound, hid]
    | succ k =>
      have hx : x.id ≠ postId := hfirst 0 x (Nat.succ_pos k) (by simp)
      simp at h
      have hrest : ∀ j q, j < k → xs[j]? = some q → q.id ≠ postId := by
        intro j q hj hq
        exact hfirst (j + 1) q (Nat.succ_lt_succ hj) (by simpa using hq)
      simp [updateFound, hx, ih k p h hid hrest]

theorem updateFound_other (f : Post → Post) (postId : String) :
    ∀ (l : List Post) (i : Nat) (p : Post), l[i]? = some p →
      (p.id ≠ postId ∨ ∃ j q, j < i ∧ l[j]? = some q ∧ q.id = postId) →
      (updateFound f postId l)[i]? = some p := by
  intro l
  induction l with
  | nil => intro i p h; simp at h
  | cons x xs ih =>
    intro i p h hcase
    by_cases hx : x.id = postId
    · cases i with
      | zero =>
        simp at h
        subst h
        rcases hcase with hne | ⟨j, q, hj, _, _⟩
        · exact absurd hx hne
        · exact absurd hj (Nat.not_lt_zero j)
      | succ k =>
        simp at h
        simp [updateFound, hx, h]
    · cases i with
      | zero =>
        simp at h
        subst h
        simp [updateFound, hx]
      | succ k =>
        simp at h
        have hcase2 : p.id ≠ postId ∨ ∃ j q, j < k ∧ xs[j]? = some q ∧ q.id = postId := by
          rcases hcase with hne | ⟨j, q, hj, hq, hqid⟩
          · exact Or.inl hne
          · cases j with
            | zero =>
              simp at hq
              subst hq
              exact absurd hqid hx
            | succ m =>
              exact Or.inr ⟨m, q, Nat.lt_of_succ_lt_succ hj, by simpa using hq, hqid⟩
        simp [updateFound, hx, ih k p h hcase2]

theorem updateFound_cases (f : Post → Post) (postId : String)
    (l : List Post) (i : Nat) (p : Post) (h : l[i]? = some p) :
    (updateFound f postId l)[i]? = some p ∨ (updateFound f postId l)[i]? = some (f p) := by
  by_cases hc : p.id ≠ postId ∨ ∃ j q, j < i ∧ l[j]? = some q ∧ q.id = postId
  · exact Or.inl (updateFound_other f postId l i p h hc)
  · refine Or.inr (updateFound_first f postId l i p h ?_ ?_)
    · by_contra hne
      exact hc (Or.inl hne)
    · intro j q hj hq hqid
      exact hc (Or.inr ⟨j, q, hj, hq, hqid⟩)

theorem updateFound_twice (f : Post → Post) (postId : String)
    (hf : ∀ p, (f p).id = p.id) (l : List Post) :
    updateFound f postId (updateFound f postId l) = updateFound (fun p => f (f p)) postId l := by
  induction l with
  | nil => rfl
  | cons x xs ih =>
    by_cases hx : x.id = postId
    · have hfx : (f x).id = postId := by rw [hf x]; exact hx
      simp [updateFound, hx, hfx]
    · simp [updateFound, hx, ih]

theorem likeFlip_id (p : Post) : (likeFlip p).id = p.id := by
  unfold likeFlip
  dsimp only
  split <;> rfl

theorem toggleLike_posts (postId : String) (w : World) :
    (toggleLike postId w).state.posts = updateFound likeFlip postId w.state.posts := by
  unfold toggleLike
  split
  · next h =>
    rw [updateFound_absent likeFlip postId _ ((find_none_iff postId _).mp h)]
  · rfl

theorem toggleLike_users (postId : String) (w : World) :
    (toggleLike postId w).state.users = w.state.users := by
  unfold toggleLike
  split <;> rfl

/-! ## Auxiliary facts about `likeFlip` -/

theorem intOrZero_eq (n : Int) : intOrZero n = n := by
  unfold intOrZero
  split
  · next h => exact h.symm
  · rfl

theorem likeFlip_frame (p : Post) :
    (likeFlip p).id = p.id ∧ (likeFlip p).author = p.author ∧
      (likeFlip p).content = p.content ∧ (likeFlip p).ts = p.ts := by
  unfold likeFlip
  dsimp only
  split <;> exact ⟨rfl, rfl, rfl, rfl⟩

theorem quantumExp_small (fuel a : Nat) (h : a < 9007199254740992) :
    quantumExp fuel a = 0 := by
  cases fuel with
  | zero => rfl
  | succ k => simp [quantumExp, h]

theorem roundNat_small (a : Nat) (h : a < 9007199254740992) : roundNat a = a := by
  unfold roundNat
  rw [quantumExp_small a a h]
  simp [Nat.mod_one]

theorem roundDouble_small (n : Int) (hlo : -9007199254740992 < n)
    (hhi : n < 9007199254740992) : roundDouble n = n := by
  unfold roundDouble
  rw [roundNat_small n.natAbs (by omega)]
  exact Int.sign_mul_natAbs n

theorem likeFlip_liked_raw (p : Post) (h : likedByMe p = true) :
    likedByMe (likeFlip p) = false ∧
      (likeFlip p).likes = max 0 (roundDouble (p.likes - 1)) := by
  unfold likedByMe at h
  unfold likeFlip
  dsimp only
  rw [if_pos h]
  constructor
  · simp [likedByMe]
  · rfl

theorem likeFlip_unliked_raw (p : Post) (h : likedByMe p = false) :
    likedByMe (likeFlip p) = true ∧ (likeFlip p).likes = roundDouble (p.likes + 1) := by
  unfold likedByMe at h
  unfold likeFlip
  dsimp only
  rw [if_neg (by rw [h]; exact Bool.false_ne_true)]
  constructor
  · simp [likedByMe]
  · simp [intOrZero_eq]

theorem likeFlip_liked (p : Post) (h : likedByMe p = true)
    (hlo : 0 ≤ p.likes) (hhi : p.likes ≤ 9007199254740992) :
    likedByMe (likeFlip p) = false ∧ (likeFlip p).likes = max 0 (p.likes - 1) := by
  obtain ⟨h1, h2⟩ := likeFlip_liked_raw p h
  refine ⟨h1, ?_⟩
  rw [h2, roundDouble_small (p.likes - 1) (by omega) (by omega)]

theorem likeFlip_unliked (p : Post) (h : likedByMe p = false)
    (hlo : 0 ≤ p.likes) (hhi : p.likes < 9007199254740992) :
    likedByMe (likeFlip p) = true ∧ (likeFlip p).likes = p.likes + 1 := by
  obtain ⟨h1, h2⟩ := likeFlip_unliked_raw p h
  refine ⟨h1, ?_⟩
  rw [h2]
  rcases lt_or_le (p.likes + 1) 9007199254740992 with hs | hs
  · exact roundDouble_small (p.likes + 1) (by omega) hs
  · have he : p.likes + 1 = 9007199254740992 := by omega
    rw [he]
    decide

theorem likeFlip_twice (p : Post)
    (hliked : likedByMe p = true → 1 ≤ p.likes ∧ p.likes < 9007199254740992)
    (hunliked : likedByMe p = false → 0 ≤ p.likes ∧ p.likes < 9007199254740992) :
    (likeFlip (likeFlip p)).likes = p.likes ∧ likedByMe (likeFlip (likeFlip p)) = likedByMe p := by
  cases h : likedByMe p with
  | true =>
    obtain ⟨hlo, hhi⟩ := hliked h
    obtain ⟨h1, h2⟩ := likeFlip_liked p h (by omega) (by omega)
    have hmax : max 0 (p.likes - 1) = p.likes - 1 := max_eq_right (by omega)
    rw [hmax] at h2
    obtain ⟨h3, h4⟩ := likeFlip_unliked (likeFlip p) h1 (by omega) (by omega)
    refine ⟨?_, h3⟩
    rw [h4, h2]
    omega
  | false =>
    obtain ⟨hlo, hhi⟩ := hunliked h
    obtain ⟨h1, h2⟩ := likeFlip_unliked p h hlo hhi
    obtain ⟨h3, h4⟩ := likeFlip_liked (likeFlip p) h1 (by omega) (by omega)
    refine ⟨?_, h3⟩
    rw [h4, h2]
    have hmax : max 0 (p.likes + 1 - 1) = p.likes + 1 - 1 := max_eq_right (by omega)
    rw [hmax]
    omega

/-! ## Auxiliary facts about `jsTrim` -/

theorem trimChars_blank (cs : List Char) (h : ∀ c ∈ cs, isJsWhitespace c = true) :
    trimChars cs = [] := by
  unfold trimChars
  rw [List.dropWhile_eq_nil_iff.mpr h]
  rfl

theorem jsTrim_blank (s : String) (h : ∀ c ∈ s.data, isJsWhitespace c = true) :
    jsTrim s = "" := by
  unfold jsTrim
  rw [trimChars_blank s.data h]

/-! ## Auxiliary facts about the likes invariant -/

theorem createPost_consistent (e : CreateEnv) (author content : String) :
    Consistent (createPost e author content) :=
  ⟨rfl, Or.inl rfl⟩

theorem likeFlip_consistent (p : Post) (h : Consistent p) : Consistent (likeFlip p) := by
  obtain ⟨hlikes, hby | hby⟩ := h
  · rw [hby] at hlikes
    have h0 : p.likes = 0 := by simpa using hlikes
    unfold likeFlip
    dsimp only
    rw [hby]
    refine ⟨?_, Or.inr ?_⟩
    · have hr : roundDouble 1 = 1 := by decide
      simp [h0, intOrZero, hr]
    · simp
  · rw [hby] at hlikes
    have h1 : p.likes = 1 := by simpa using hlikes
    unfold likeFlip
    dsimp only
    rw [hby]
    refine ⟨?_, Or.inl ?_⟩
    · have hr : roundDouble 0 = 0 := by decide
      simp [h1, hr]
    · simp

theorem updateFound_consistent (postId : String) (l : List Post)
    (h : ∀ p ∈ l, Consistent p) : ∀ p ∈ updateFound likeFlip postId l, Consistent p := by
  induction l with
  | nil => intro p hp; simp [updateFound] at hp
  | cons x xs ih =>
    have hx : Consistent x := h x (List.mem_cons_self x xs)
    have hxs : ∀ p ∈ xs, Consistent p := fun p hp => h p (List.mem_cons_of_mem x hp)
    intro p hp
    unfold updateFound at hp
    split at hp
    · rcases List.mem_cons.mp hp with rfl | hp
      · exact likeFlip_consistent x hx
      · exact hxs p hp
    · rcases List.mem_cons.mp hp with rfl | hp
      · exact hx
      · exact ih hxs p hp

theorem samplePosts_consistent (e1 e2 e3 : CreateEnv) :
    ∀ p ∈ samplePosts e1 e2 e3, Consistent p := by
  intro p hp
  simp only [samplePosts, List.mem_cons, List.mem_singleton, List.not_mem_nil, or_false] at hp
  rcases hp with rfl | rfl | rfl <;> exact createPost_consistent _ _ _

theorem boot_seeded_posts (stored : Option AppState) (content name : String)
    (e1 e2 e3 : CreateEnv) (hu : (loadState stored).users = [])
    (hp : (loadState stored).posts = []) :
    (boot stored content name e1 e2 e3).state.posts = samplePosts e1 e2 e3 := by
  unfold boot
  dsimp only
  rw [if_pos (by simp [hu, hp])]
  rfl

theorem step_consistent (w : World) (a : Action)
    (h : ∀ p ∈ w.state.posts, Consistent p) : ∀ p ∈ (step w a).state.posts, Consistent p := by
  cases a with
  | typeContent text => exact h
  | typeName text => exact h
  | clickPost e =>
    intro p hp
    unfold step onCreatePost at hp
    dsimp only at hp
    split at hp
    · exact h p hp
    · rcases List.mem_cons.mp hp with rfl | hp
      · exact createPost_consistent _ _ _
      · exact h p hp
  | clickLike postId =>
    intro p hp
    unfold step at hp
    rw [toggleLike_posts] at hp
    exact updateFound_consistent postId w.state.posts h p hp
  | clickFollow i => exact h
  | clickToggleAll => exact h
  | clickReset confirmed e1 e2 e3 =>
    cases confirmed with
    | false => exact h
    | true => exact samplePosts_consistent e1 e2 e3

theorem run_consistent (acts : List Action) :
    ∀ w : World, (∀ p ∈ w.state.posts, Consistent p) →
      ∀ p ∈ (run w acts).state.posts, Consistent p := by
  induction acts with
  | nil => intro w h; exact h
  | cons a rest ih =>
    intro w h
    exact ih (step w a) (step_consistent w a h)

/-! ## The claims -/

/-- Claim C1, as stated, fails, at two stored documents. With `likes = 0` and
`"me"` in `likedBy`, two calls of `toggleLike` on the post's id end with
`likes = 1`: the first call floors the counter at zero, the second adds one.
With `likes = 2^53` and `"me"` not in `likedBy`, they end with `likes = 2^53 - 1`:
the sum `2^53 + 1` is not a double and rounds back to `2^53`, the second call
subtracts one. The membership of `"me"` is restored both times. -/
theorem toggleLike_twice_drifted :
    (driftedWorld.state.posts.map (fun p => (p.id, p.likes, likedByMe p)) = [("p", 0, true)] ∧
     (toggleLike "p" (toggleLike "p" driftedWorld)).state.posts.map
        (fun p => (p.id, p.likes, likedByMe p)) = [("p", 1, true)]) ∧
    (saturatedWorld.state.posts.map (fun p => (p.id, p.likes, likedByMe p)) =
        [("p", 9007199254740992, false)] ∧
     (toggleLike "p" (toggleLike "p" saturatedWorld)).state.posts.map
        (fun p => (p.id, p.likes, likedByMe p)) = [("p", 9007199254740991, false)]) := by
  decide

/-- Claim C1, amended: for every world and every post `p` in it (at position
`i`) whose counter is at most `2^53 - 1`, and at least `1` when `"me"` is in its
`likedBy` and at least `0` otherwise, after two calls of `toggleLike` on the id
of `p` the post at position `i` has the likes count of `p` and the same
membership of `"me"`. -/
theorem toggleLike_twice_restores (w : World) (i : Nat) (p : Post)
    (hp : w.state.posts[i]? = some p)
    (hsafe : p.likes ≤ 9007199254740991)
    (hliked : likedByMe p = true → 1 ≤ p.likes)
    (hunliked : likedByMe p = false → 0 ≤ p.likes) :
    ∃ p', (toggleLike p.id (toggleLike p.id w)).state.posts[i]? = some p' ∧
      p'.likes = p.likes ∧ likedByMe p' = likedByMe p := by
  rw [toggleLike_posts, toggleLike_posts, updateFound_twice likeFlip p.id likeFlip_id]
  rcases updateFound_cases (fun q => likeFlip (likeFlip q)) p.id w.state.posts i p hp with h | h
  · exact ⟨p, h, rfl, rfl⟩
  · exact ⟨likeFlip (likeFlip p), h,
      likeFlip_twice p (fun hl => ⟨hliked hl, by omega⟩) (fun hu => ⟨hunliked hu, by omega⟩)⟩

/-- The amended claim C1 at the second seed post of `demoWorld`. -/
theorem toggleLike_twice_restores_witness :
    ∃ p', (toggleLike demoSecond.id (toggleLike demoSecond.id demoWorld)).state.posts[1]? = some p' ∧
      p'.likes = demoSecond.likes ∧ likedByMe p' = likedByMe demoSecond :=
  toggleLike_twice_restores demoWorld 1 demoSecond (by decide) (by decide) (by decide) (by decide)

/-- Claim C2: when the trimmed composer content is non-empty, `onCreatePost`
makes the posts list one longer, its first element is the new post (trimmed
content, author defaulting to `"You"`, `likes = 0`, empty `likedBy`), and the
rest is the previous list in its previous order. -/
theorem onCreatePost_prepends (e : CreateEnv) (w : World)
    (h : jsTrim w.postContent ≠ "") :
    (onCreatePost e w).state.posts.length = w.state.posts.length + 1 ∧
    (onCreatePost e w).state.posts.head? =
      some { id := "p_" ++ toString e.idNow ++ "_" ++ e.suffix,
             author := strOr (jsTrim w.postName) "You",
             content := jsTrim w.postContent,
             likes := 0,
             likedBy := some [],
             ts := e.tsNow } ∧
    (onCreatePost e w).state.posts.tail = w.state.posts := by
  unfold onCreatePost
  dsimp only
  rw [if_neg h]
  exact ⟨rfl, rfl, rfl⟩

/-- Claim C2 at `demoWorld` with the composer holding `"  hi there \n"`. -/
theorem onCreatePost_prepends_witness :
    (onCreatePost sameTick { demoWorld with postContent := "  hi there \n" }).state.posts.length
      = demoWorld.state.posts.length + 1 ∧
    (onCreatePost sameTick { demoWorld with postContent := "  hi there \n" }).state.posts.head? =
      some { id := "p_" ++ toString sameTick.idNow ++ "_" ++ sameTick.suffix,
             author := strOr (jsTrim demoWorld.postName) "You",
             content := jsTrim "  hi there \n",
             likes := 0,
             likedBy := some [],
             ts := sameTick.tsNow } ∧
    (onCreatePost sameTick { demoWorld with postContent := "  hi there \n" }).state.posts.tail
      = demoWorld.state.posts :=
  onCreatePost_prepends sameTick { demoWorld with postContent := "  hi there \n" } (by decide)

/-- Claim C3: when the composer content is empty or consists only of whitespace,
`onCreatePost` shows the alert and changes nothing else: the state (posts, post
count, users), the stored document and both inputs are as before. -/
theorem onCreatePost_blank_rejected (e : CreateEnv) (w : World)
    (h : ∀ c ∈ w.postContent.data, isJsWhitespace c = true) :
    (onCreatePost e w).alerts = w.alerts ++ ["Please enter a message."] ∧
    (onCreatePost e w).state = w.state ∧
    (onCreatePost e w).state.posts.length = w.state.posts.length ∧
    (onCreatePost e w).stored = w.stored ∧
    (onCreatePost e w).postContent = w.postContent ∧
    (onCreatePost e w).postName = w.postName := by
  unfold onCreatePost
  dsimp only
  rw [if_pos (jsTrim_blank w.postContent h)]
  exact ⟨rfl, rfl, rfl, rfl, rfl, rfl⟩

/-- Claim C3 at `demoWorld` with the composer holding only whitespace. -/
theorem onCreatePost_blank_rejected_witness :
    (onCreatePost sameTick { demoWorld with postContent := " \t\n " }).alerts
      = demoWorld.alerts ++ ["Please enter a message."] ∧
    (onCreatePost sameTick { demoWorld with postContent := " \t\n " }).state = demoWorld.state ∧
    (onCreatePost sameTick { demoWorld with postContent := " \t\n " }).state.posts.length
      = demoWorld.state.posts.length ∧
    (onCreatePost sameTick { demoWorld with postContent := " \t\n " }).stored = demoWorld.stored ∧
    (onCreatePost sameTick { demoWorld with postContent := " \t\n " }).postContent = " \t\n " ∧
    (onCreatePost sameTick { demoWorld with postContent := " \t\n " }).postName = demoWorld.postName :=
  onCreatePost_blank_rejected sameTick { demoWorld with postContent := " \t\n " } (by decide)

/-- Claim C4: after `onToggleFollowAll`, no user follows if some user followed
before, and every user follows if none followed before; ids, names, number and
order of the users are unchanged (and so are the posts). -/
theorem onToggleFollowAll_spec (w : World) :
    ((∃ u ∈ w.state.users, u.following = true) →
        ∀ u ∈ (onToggleFollowAll w).state.users, u.following = false) ∧
    ((∀ u ∈ w.state.users, u.following = false) →
        ∀ u ∈ (onToggleFollowAll w).state.users, u.following = true) ∧
    (onToggleFollowAll w).state.users.map (fun u => (u.id, u.name)) =
        w.state.users.map (fun u => (u.id, u.name)) ∧
    (onToggleFollowAll w).state.users.length = w.state.users.length ∧
    (onToggleFollowAll w).state.posts = w.state.posts := by
  refine ⟨?_, ?_, ?_, ?_, rfl⟩
  · rintro ⟨v, hv, hvf⟩ u hu
    have hany : w.state.users.any (fun u => u.following) = true :=
      List.any_eq_true.mpr ⟨v, hv, hvf⟩
    simp only [onToggleFollowAll, saveState, List.mem_map] at hu
    obtain ⟨a, _, rfl⟩ := hu
    simp [hany]
  · intro hnone u hu
    have hany : w.state.users.any (fun u => u.following) = false := by
      rw [List.any_eq_false]
      intro x hx
      rw [hnone x hx]
      exact Bool.false_ne_true
    simp only [onToggleFollowAll, saveState, List.mem_map] at hu
    obtain ⟨a, _, rfl⟩ := hu
    simp [hany]
  · simp [onToggleFollowAll, saveState, Function.comp_def]
  · simp [onToggleFollowAll, saveState]

/-- Claim C5: a confirmed `onReset` yields, whatever the prior world, exactly the
three seed users `u1` Alex, `u2` Jordan, `u3` Sam, none following, and exactly
the three seed posts by Alex, Jordan and Sam with the fixed contents, `likes = 0`
and empty `likedBy`; that state is also what is stored. -/
theorem onReset_confirmed (e1 e2 e3 : CreateEnv) (w : World) :
    (onReset true e1 e2 e3 w).state =
      { users := [ { id := "u1", name := "Alex", following := false },
                   { id := "u2", name := "Jordan", following := false },
                   { id := "u3", name := "Sam", following := false } ],
        posts := [ { id := "p_" ++ toString e1.idNow ++ "_" ++ e1.suffix, author := "Alex",
                     content := "Hello! This is a sample post.",
                     likes := 0, likedBy := some [], ts := e1.tsNow },
                   { id := "p_" ++ toString e2.idNow ++ "_" ++ e2.suffix, author := "Jordan",
                     content := "Welcome to the Date App demo.",
                     likes := 0, likedBy := some [], ts := e2.tsNow },
                   { id := "p_" ++ toString e3.idNow ++ "_" ++ e3.suffix, author := "Sam",
                     content := "Try creating a post using the box above.",
                     likes := 0, likedBy := some [], ts := e3.tsNow } ] } ∧
    (onReset true e1 e2 e3 w).stored = some (onReset true e1 e2 e3 w).state := by
  exact ⟨rfl, rfl⟩

/-- Claim C7, as stated, fails: started on a stored document whose only post has
the non-negative integer `likes = 2^53` and no `"me"` in `likedBy`, `toggleLike`
on that post's id adds `"me"` but leaves `likes = 2^53`, not `2^53 + 1`: the sum
is not a double and rounds back. -/
theorem toggleLike_saturated_counter :
    saturatedWorld.state.posts.map (fun p => (p.id, p.likes, likedByMe p)) =
      [("p", 9007199254740992, false)] ∧
    (toggleLike "p" saturatedWorld).state.posts.map (fun p => (p.id, p.likes, likedByMe p)) =
      [("p", 9007199254740992, true)] := by
  decide

/-- Claim C7, amended: for every world and every post `p` in it (at position
`i`) with `0 ≤ likes ≤ 2^53 - 1` such that no earlier post carries the id of `p`
(so for every post when ids are unique, as the data model has them),
`toggleLike` on that id puts at position `i` a post `p'` with: if `"me"` was in
`likedBy` then it no longer is and `likes = max 0 (likes - 1)`; otherwise it now
is and `likes = likes + 1`; in both cases `0 ≤ likes`. -/
theorem toggleLike_found_post (w : World) (i : Nat) (p : Post)
    (hp : w.state.posts[i]? = some p)
    (hfirst : ∀ (j : Nat) (q : Post), j < i → w.state.posts[j]? = some q → q.id ≠ p.id)
    (hlikes : 0 ≤ p.likes) (hsafe : p.likes ≤ 9007199254740991) :
    ∃ p', (toggleLike p.id w).state.posts[i]? = some p' ∧
      (likedByMe p = true → likedByMe p' = false ∧ p'.likes = max 0 (p.likes - 1)) ∧
      (likedByMe p = false → likedByMe p' = true ∧ p'.likes = p.likes + 1) ∧
      0 ≤ p'.likes := by
  refine ⟨likeFlip p, ?_, fun h => likeFlip_liked p h hlikes (by omega),
    fun h => likeFlip_unliked p h hlikes (by omega), ?_⟩
  · rw [toggleLike_posts]
    exact updateFound_first likeFlip p.id w.state.posts i p hp rfl hfirst
  · cases h : likedByMe p with
    | true => rw [(likeFlip_liked p h hlikes (by omega)).2]; exact le_max_left 0 _
    | false => rw [(likeFlip_unliked p h hlikes (by omega)).2]; omega

/-- The amended claim C7 at the second seed post of `demoWorld`. -/
theorem toggleLike_found_post_witness :
    ∃ p', (toggleLike demoSecond.id demoWorld).state.posts[1]? = some p' ∧
      (likedByMe demoSecond = true →
        likedByMe p' = false ∧ p'.likes = max 0 (demoSecond.likes - 1)) ∧
      (likedByMe demoSecond = false →
        likedByMe p' = true ∧ p'.likes = demoSecond.likes + 1) ∧
      0 ≤ p'.likes :=
  toggleLike_found_post demoWorld 1 demoSecond (by decide)
    (by
      intro j q hj hq
      obtain rfl : j = 0 := by omega
      obtain rfl : demoFirst = q := Option.some.inj ((by decide : demoWorld.state.posts[0]? = some demoFirst).symm.trans hq)
      decide)
    (by decide) (by decide)

/-- Claim C8 against the code: the replacement table of `escapeHtml` maps `&`,
`<` and `>` to themselves and `"` to a typographic quote; only the apostrophe
becomes an entity. Markup therefore passes through with its angle brackets and
ampersands raw. -/
theorem escapeHtml_keeps_markup :
    escapeHtml "<b class=\"x\">Q&A</b>" = "<b class=“x“>Q&A</b>" ∧
    escapeHtml "it's" = "it&#39;s" ∧
    '<' ∈ (escapeHtml "<").data ∧ '>' ∈ (escapeHtml ">").data ∧
    escapeHtml "&" = "&" := by
  decide

/-- Claim C9: `toggleLike` leaves the users list, the number of posts and, at
every position, the id, author, content and ts of the post unchanged (so the
order is kept); every post other than the first one with the given id is
unchanged; and when no post has that id the whole world is unchanged. -/
theorem toggleLike_frame (postId : String) (w : World) :
    (toggleLike postId w).state.users = w.state.users ∧
    (toggleLike postId w).state.posts.length = w.state.posts.length ∧
    (∀ i : Nat, ((toggleLike postId w).state.posts[i]?).map
            (fun p => (p.id, p.author, p.content, p.ts)) =
          (w.state.posts[i]?).map (fun p => (p.id, p.author, p.content, p.ts))) ∧
    (∀ (i : Nat) (p : Post), w.state.posts[i]? = some p →
        (p.id ≠ postId ∨ ∃ (j : Nat) (q : Post), j < i ∧ w.state.posts[j]? = some q ∧ q.id = postId) →
        (toggleLike postId w).state.posts[i]? = some p) ∧
    ((∀ p ∈ w.state.posts, p.id ≠ postId) → toggleLike postId w = w) := by
  refine ⟨toggleLike_users postId w, ?_, ?_, ?_, ?_⟩
  · rw [toggleLike_posts, updateFound_length]
  · intro i
    rw [toggleLike_posts]
    cases hp : w.state.posts[i]? with
    | none =>
      have hlen : (updateFound likeFlip postId w.state.posts).length ≤ i := by
        rw [updateFound_length]
        exact List.getElem?_eq_none_iff.mp hp
      rw [List.getElem?_eq_none_iff.mpr hlen]
    | some p =>
      rcases updateFound_cases likeFlip postId w.state.posts i p hp with h | h
      · rw [h]
      · obtain ⟨h1, h2, h3, h4⟩ := likeFlip_frame p
        rw [h]
        simp [h1, h2, h3, h4]
  · intro i p hp hcase
    rw [toggleLike_posts]
    exact updateFound_other likeFlip postId w.state.posts i p hp hcase
  · intro h
    unfold toggleLike
    rw [(find_none_iff postId w.state.posts).mpr h]

/-- Claim C10: in every world reached from a seeded start of the page (the
loaded state has no users and no posts, as on a first run), or from a confirmed
reset of any world, by any finite sequence of actions (typing, post
creation, like toggles, single and bulk follow toggles, further resets), every
post has `likes` equal to the length of `likedBy`, and `likedBy` is empty or
exactly `["me"]`, so `likes` is `0` or `1`. -/
theorem likes_track_likedBy (content name : String) (e1 e2 e3 : CreateEnv)
    (acts : List Action) :
    (∀ stored : Option AppState,
      (loadState stored).users = [] → (loadState stored).posts = [] →
      ∀ p ∈ (run (boot stored content name e1 e2 e3) acts).state.posts,
        p.likes = ((p.likedBy.getD []).length : Int) ∧
        (p.likedBy = some [] ∨ p.likedBy = some ["me"]) ∧
        (p.likes = 0 ∨ p.likes = 1)) ∧
    (∀ w : World, ∀ p ∈ (run (onReset true e1 e2 e3 w) acts).state.posts,
        p.likes = ((p.likedBy.getD []).length : Int) ∧
        (p.likedBy = some [] ∨ p.likedBy = some ["me"]) ∧
        (p.likes = 0 ∨ p.likes = 1)) := by
  have key : ∀ p : Post, Consistent p →
      p.likes = ((p.likedBy.getD []).length : Int) ∧
        (p.likedBy = some [] ∨ p.likedBy = some ["me"]) ∧ (p.likes = 0 ∨ p.likes = 1) := by
    intro p hp
    refine ⟨hp.1, hp.2, ?_⟩
    obtain ⟨hlikes, hby | hby⟩ := hp
    · rw [hby] at hlikes
      exact Or.inl (by simpa using hlikes)
    · rw [hby] at hlikes
      exact Or.inr (by simpa using hlikes)
  constructor
  · intro stored hu hposts p hp
    have hseed : ∀ q ∈ (boot stored content name e1 e2 e3).state.posts, Consistent q := by
      rw [boot_seeded_posts stored content name e1 e2 e3 hu hposts]
      exact samplePosts_consistent e1 e2 e3
    exact key p (run_consistent acts _ hseed p hp)
  · intro w p hp
    exact key p (run_consistent acts _ (samplePosts_consistent e1 e2 e3) p hp)

end DateApp
